import Mathlib

/-!
Verification of the moba repository simulation core against its specification.

The embedding translates the TypeScript source into Lean:
rational numbers stand in for JS numbers (all concrete inputs used in the
theorems below are chosen so that every square root the source computes is
rational, making the embedding exact on those inputs); THREE.Vector3 becomes
a record of three rationals; comparisons of Euclidean distances against
non-negative bounds are encoded by comparing squared distances, which is
equivalent because the square root is monotone.
-/

namespace Moba

/-- Three-dimensional vector over the rationals, standing in for
THREE.Vector3. -/
structure Vec3 where
  x : ℚ
  y : ℚ
  z : ℚ
deriving DecidableEq

/-- Squared full 3D Euclidean distance. THREE.Vector3.distanceTo computes
the square root of this quantity; every comparison of that distance against
a bound is embedded via the squared form. -/
def dist3Sq (p q : Vec3) : ℚ :=
  (p.x - q.x) ^ 2 + (p.y - q.y) ^ 2 + (p.z - q.z) ^ 2

/-- Squared distance in the XZ plane (ignoring the Y coordinate). -/
def distXZSq (p q : Vec3) : ℚ :=
  (p.x - q.x) ^ 2 + (p.z - q.z) ^ 2

/-- Encoding of the comparison sqrt d2 is at most r over the reals, for a
squared quantity d2 that is non-negative: it holds exactly when r is
non-negative and d2 is at most r squared. -/
def sqDistLe (d2 r : ℚ) : Bool :=
  decide (0 ≤ r) && decide (d2 ≤ r ^ 2)

/-- Rational square root, defined exactly when the argument is the square
of a rational (numerator and denominator of the reduced form are both
perfect squares). -/
def ratSqrt (q : ℚ) : Option ℚ :=
  if q < 0 then none
  else
    let n := q.num.toNat
    let d := q.den
    let sn := Nat.sqrt n
    let sd := Nat.sqrt d
    if sn * sn = n ∧ sd * sd = d then some ((sn : ℚ) / (sd : ℚ)) else none

/-- Total version of ratSqrt with junk value 0 outside its domain. The
source computes real square roots; the concrete inputs in this file are
chosen so that ratSqrt always succeeds where the result matters. -/
def sqrtQ (q : ℚ) : ℚ :=
  (ratSqrt q).getD 0

theorem ratSqrt_sq (a : ℚ) (ha : 0 ≤ a) : ratSqrt (a * a) = some a := by
  unfold ratSqrt
  rw [if_neg (not_lt.mpr (mul_self_nonneg a))]
  have hn0 : 0 ≤ a.num := Rat.num_nonneg.mpr ha
  have htoNat : (a * a).num.toNat = a.num.toNat * a.num.toNat := by
    rw [Rat.mul_self_num]
    conv_lhs => rw [← Int.toNat_of_nonneg hn0]
    rw [← Int.natCast_mul, Int.toNat_natCast]
  have hden : (a * a).den = a.den * a.den := Rat.mul_self_den a
  simp only [htoNat, hden, Nat.sqrt_eq]
  rw [if_pos ⟨by trivial, by trivial⟩]
  congr 1
  have hcast : ((a.num.toNat : ℚ)) = (a.num : ℚ) := by
    rw [← Int.cast_natCast, Int.toNat_of_nonneg hn0]
  rw [hcast, Rat.num_div_den]

theorem sqrtQ_sq (a : ℚ) (ha : 0 ≤ a) : sqrtQ (a * a) = a := by
  rw [sqrtQ, ratSqrt_sq a ha]
  rfl

/-- Embedding of subVectors(..).setY(0).normalize() from THREE: project to
the XZ plane and scale to unit length. THREE normalize divides by
(length or 1), so the zero vector stays zero. -/
def normXZ (v : Vec3) : Vec3 :=
  let len := sqrtQ (v.x ^ 2 + v.z ^ 2)
  if len = 0 then ⟨0, 0, 0⟩ else ⟨v.x / len, 0, v.z / len⟩

/-! ## A stable merge sort modelling Array.prototype.sort

ECMAScript requires Array.prototype.sort to be stable; when the comparator
is not a consistent comparison function (as is the case for the registry
comparator below) the exact order is implementation-defined.  The embedding
fixes a standard stable top-down merge sort, written with explicit fuel so
that it is structurally recursive and computable by kernel reduction.
An element x stays before y exactly when the comparator returns a value
that is at most 0, matching the stable-sort reading of the comparator. -/

/-- Merge two lists, taking from the left list while the comparator allows
it (le x y true keeps x first, the stable choice). The fuel is always at
least the sum of the lengths at every call site. -/
def mergeFuel (le : α → α → Bool) : ℕ → List α → List α → List α
  | 0, xs, ys => xs ++ ys
  | _ + 1, [], ys => ys
  | _ + 1, x :: xs, [] => x :: xs
  | f + 1, x :: xs, y :: ys =>
    if le x y then x :: mergeFuel le f xs (y :: ys)
    else y :: mergeFuel le f (x :: xs) ys

/-- Top-down merge sort with fuel; fuel equal to the length of the list is
always sufficient. -/
def msortFuel (le : α → α → Bool) : ℕ → List α → List α
  | 0, l => l
  | f + 1, l =>
    if l.length ≤ 1 then l
    else
      let n := l.length / 2
      mergeFuel le l.length (msortFuel le f (l.take n)) (msortFuel le f (l.drop n))

/-- Stable sort used to model Array.prototype.sort with a comparator. -/
def jsSort (le : α → α → Bool) (l : List α) : List α :=
  msortFuel le l.length l

theorem mergeFuel_perm (le : α → α → Bool) :
    ∀ (f : ℕ) (xs ys : List α), (mergeFuel le f xs ys).Perm (xs ++ ys) := by
  intro f
  induction f with
  | zero => intro xs ys; exact List.Perm.refl _
  | succ f ih =>
    intro xs ys
    match xs, ys with
    | [], ys => simp [mergeFuel]
    | x :: xs, [] => simp [mergeFuel]
    | x :: xs, y :: ys =>
      simp only [mergeFuel]
      by_cases h : le x y = true
      · simpa [h] using (ih xs (y :: ys)).cons x
      · simp only [h, if_false]
        refine ((ih (x :: xs) ys).cons y).trans ?_
        exact (List.perm_middle).symm

theorem msortFuel_perm (le : α → α → Bool) :
    ∀ (f : ℕ) (l : List α), (msortFuel le f l).Perm l := by
  intro f
  induction f with
  | zero => intro l; exact List.Perm.refl _
  | succ f ih =>
    intro l
    simp only [msortFuel]
    by_cases h : l.length ≤ 1
    · simp [h]
    · simp only [h, if_false]
      refine (mergeFuel_perm le l.length _ _).trans ?_
      refine ((ih _).append (ih _)).trans ?_
      simp [List.take_append_drop]

theorem jsSort_perm (le : α → α → Bool) (l : List α) : (jsSort le l).Perm l :=
  msortFuel_perm le l.length l

/-! ## Partition-respecting sorting

For a predicate isP that splits elements into a high class and a low class,
with a comparator that always puts high before low, a stable merge sort
produces a list in which every high element precedes every low element.
This is used below to show that the registry query puts player entries
before non-player entries. -/

/-- The list is a block of elements satisfying isP followed by a block of
elements falsifying it. -/
def FrontBlock (isP : α → Bool) (l : List α) : Prop :=
  ∃ p q, l = p ++ q ∧ (∀ x ∈ p, isP x = true) ∧ (∀ x ∈ q, isP x = false)

theorem frontBlock_nil (isP : α → Bool) : FrontBlock isP [] :=
  ⟨[], [], rfl, by simp, by simp⟩

theorem frontBlock_small (isP : α → Bool) (l : List α) (h : l.length ≤ 1) :
    FrontBlock isP l := by
  match l, h with
  | [], _ => exact frontBlock_nil isP
  | [x], _ =>
    by_cases hx : isP x = true
    · exact ⟨[x], [], by simp, by simpa using hx, by simp⟩
    · exact ⟨[], [x], by simp, by simp, by simpa using hx⟩

theorem frontBlock_of_all_false (isP : α → Bool) (l : List α)
    (h : ∀ x ∈ l, isP x = false) : FrontBlock isP l :=
  ⟨[], l, rfl, by simp, h⟩

theorem frontBlock_cons_true (isP : α → Bool) (x : α) (l : List α)
    (hx : isP x = true) (hl : FrontBlock isP l) : FrontBlock isP (x :: l) := by
  obtain ⟨p, q, rfl, hp, hq⟩ := hl
  exact ⟨x :: p, q, rfl, by simpa [hx] using hp, hq⟩

theorem frontBlock_of_cons (isP : α → Bool) (x : α) (l : List α)
    (h : FrontBlock isP (x :: l)) : FrontBlock isP l := by
  obtain ⟨p, q, hpq, hp, hq⟩ := h
  cases p with
  | nil =>
    apply frontBlock_of_all_false
    intro y hy
    exact hq y (by simp only [List.nil_append] at hpq; rw [← hpq]; exact List.mem_cons_of_mem x hy)
  | cons a p =>
    rw [List.cons_append] at hpq
    obtain ⟨-, rfl⟩ := List.cons.injEq .. ▸ hpq
    exact ⟨p, q, rfl, fun y hy => hp y (List.mem_cons_of_mem a hy), hq⟩

theorem frontBlock_head_false (isP : α → Bool) (x : α) (l : List α)
    (h : FrontBlock isP (x :: l)) (hx : isP x = false) :
    ∀ y ∈ x :: l, isP y = false := by
  obtain ⟨p, q, hpq, hp, hq⟩ := h
  cases p with
  | nil =>
    intro y hy
    exact hq y (by simp only [List.nil_append] at hpq; rw [← hpq]; exact hy)
  | cons a p =>
    exfalso
    rw [List.cons_append] at hpq
    obtain ⟨rfl, -⟩ := List.cons.injEq .. ▸ hpq
    rw [hp x (List.mem_cons_self x p)] at hx
    exact Bool.true_eq_false.mp hx

section FrontBlockSort

variable {α : Type _}

theorem mergeFuel_frontBlock (le : α → α → Bool) (isP : α → Bool)
    (hHL : ∀ a b, isP a = true → isP b = false → le a b = true)
    (hLH : ∀ a b, isP a = false → isP b = true → le a b = false) :
    ∀ (f : ℕ) (xs ys : List α), xs.length + ys.length ≤ f →
      FrontBlock isP xs → FrontBlock isP ys →
      FrontBlock isP (mergeFuel le f xs ys) := by
  intro f
  induction f with
  | zero =>
    intro xs ys hlen hxs hys
    cases xs with
    | nil =>
      cases ys with
      | nil => exact frontBlock_nil isP
      | cons a t => simp only [List.length_nil, List.length_cons] at hlen; omega
    | cons a t => simp only [List.length_cons] at hlen; omega
  | succ f ih =>
    intro xs ys hlen hxs hys
    match xs, ys with
    | [], ys => simpa [mergeFuel] using hys
    | x :: xs, [] => simpa [mergeFuel] using hxs
    | x :: xs, y :: ys =>
      have hlen2 : xs.length + (y :: ys).length ≤ f := by
        simp only [List.length_cons] at hlen ⊢; omega
      have hlen3 : (x :: xs).length + ys.length ≤ f := by
        simp only [List.length_cons] at hlen ⊢; omega
      simp only [mergeFuel]
      by_cases hx : isP x = true
      · by_cases hcmp : le x y = true
        · simp only [hcmp, if_true]
          exact frontBlock_cons_true isP x _ hx
            (ih xs (y :: ys) hlen2 (frontBlock_of_cons isP x xs hxs) hys)
        · have hy : isP y = true := by
            by_contra hy
            exact hcmp (hHL x y hx (Bool.not_eq_true _ ▸ hy))
          simp only [hcmp, if_false]
          exact frontBlock_cons_true isP y _ hy
            (ih (x :: xs) ys hlen3 hxs (frontBlock_of_cons isP y ys hys))
      · have hxf : isP x = false := Bool.not_eq_true _ ▸ hx
        have hxsAll : ∀ z ∈ x :: xs, isP z = false :=
          frontBlock_head_false isP x xs hxs hxf
        by_cases hcmp : le x y = true
        · have hy : isP y = false := by
            by_contra hy
            rw [hLH x y hxf (Bool.of_not_eq_false hy)] at hcmp
            exact Bool.false_ne_true hcmp
          have hysAll : ∀ z ∈ y :: ys, isP z = false :=
            frontBlock_head_false isP y ys hys hy
          simp only [hcmp, if_true]
          apply frontBlock_of_all_false
          intro z hz
          rcases List.mem_cons.mp hz with rfl | hz
          · exact hxf
          · have hz2 := (mergeFuel_perm le f xs (y :: ys)).mem_iff.mp hz
            rcases List.mem_append.mp hz2 with h | h
            · exact hxsAll z (List.mem_cons_of_mem x h)
            · exact hysAll z h
        · simp only [hcmp, if_false]
          by_cases hy : isP y = true
          · exact frontBlock_cons_true isP y _ hy
              (ih (x :: xs) ys hlen3 hxs (frontBlock_of_cons isP y ys hys))
          · have hyf : isP y = false := Bool.not_eq_true _ ▸ hy
            have hysAll : ∀ z ∈ y :: ys, isP z = false :=
              frontBlock_head_false isP y ys hys hyf
            apply frontBlock_of_all_false
            intro z hz
            rcases List.mem_cons.mp hz with rfl | hz
            · exact hyf
            · have hz2 := (mergeFuel_perm le f (x :: xs) ys).mem_iff.mp hz
              rcases List.mem_append.mp hz2 with h | h
              · exact hxsAll z h
              · exact hysAll z (List.mem_cons_of_mem y h)

theorem msortFuel_frontBlock (le : α → α → Bool) (isP : α → Bool)
    (hHL : ∀ a b, isP a = true → isP b = false → le a b = true)
    (hLH : ∀ a b, isP a = false → isP b = true → le a b = false) :
    ∀ (f : ℕ) (l : List α), l.length ≤ f + 1 →
      FrontBlock isP (msortFuel le f l) := by
  intro f
  induction f with
  | zero =>
    intro l hl
    exact frontBlock_small isP l hl
  | succ f ih =>
    intro l hl
    simp only [msortFuel]
    by_cases h1 : l.length ≤ 1
    · simpa [h1] using frontBlock_small isP l h1
    · simp only [h1, if_false]
      have hTake : (l.take (l.length / 2)).length ≤ f + 1 := by
        simp only [List.length_take]; omega
      have hDrop : (l.drop (l.length / 2)).length ≤ f + 1 := by
        simp only [List.length_drop]; omega
      apply mergeFuel_frontBlock le isP hHL hLH
      · have e1 := (msortFuel_perm le f (l.take (l.length / 2))).length_eq
        have e2 := (msortFuel_perm le f (l.drop (l.length / 2))).length_eq
        rw [e1, e2, List.length_take, List.length_drop]
        omega
      · exact ih _ hTake
      · exact ih _ hDrop

theorem jsSort_frontBlock (le : α → α → Bool) (isP : α → Bool)
    (hHL : ∀ a b, isP a = true → isP b = false → le a b = true)
    (hLH : ∀ a b, isP a = false → isP b = true → le a b = false)
    (l : List α) : FrontBlock isP (jsSort le l) :=
  msortFuel_frontBlock le isP hHL hLH l.length l (Nat.le_succ_of_le le_rfl)

end FrontBlockSort

/-! ## Spatial registry (src/src/utils/PositionRegistry.ts)

The registry is a Map from string ids to entity data; Array.from over a
JS Map yields entries in insertion order, so the state is embedded as a
list of id-data pairs in that order. -/

/-- Entity type tags of the registry (EntityType in PositionRegistry.ts). -/
inductive EntityType where
  | player
  | tower
  | minion
deriving DecidableEq

/-- Team tags of the registry (TeamType in PositionRegistry.ts). -/
inductive TeamType where
  | red
  | blue
deriving DecidableEq

/-- Registry entry payload (EntityData in PositionRegistry.ts); health and
maxHealth are optional fields. -/
structure EntityData where
  position : Vec3
  team : TeamType
  type : EntityType
  health : Option ℚ
  maxHealth : Option ℚ
  isAlive : Bool
deriving DecidableEq

/-- The comparator of getEntitiesInRange, lines 72 to 84 of
PositionRegistry.ts: when the types differ, a player sorts first and any
other pair of distinct types compares equal; when the types agree and both
entries carry a health value, the result is the health difference;
otherwise equal. -/
def entCmp (a b : EntityData) : ℚ :=
  if a.type ≠ b.type then
    if a.type = EntityType.player then -1
    else if b.type = EntityType.player then 1
    else 0
  else
    match a.health, b.health with
    | some ha, some hb => ha - hb
    | _, _ => 0

/-- Stable-sort ordering induced by the comparator: a stays before b when
the comparator result is at most 0. -/
def entLe (a b : String × EntityData) : Bool :=
  decide (entCmp a.2 b.2 ≤ 0)

/-- The filter of getEntitiesInRange, lines 61 to 71 of PositionRegistry.ts:
keep alive entries, drop entries on the excluded team when one is given,
and keep entries whose full 3D Euclidean distance from the query position
is at most the range (the source calls THREE.Vector3.distanceTo, which
uses all three coordinates). -/
def entPasses (pos : Vec3) (range : ℚ) (excl : Option TeamType) (e : EntityData) : Bool :=
  e.isAlive &&
    (match excl with
     | some t => !(e.team = t : Bool)
     | none => true) &&
    sqDistLe (dist3Sq pos e.position) range

/-- Embedding of PositionRegistry.getEntitiesInRange, lines 55 to 85:
filter the entries in insertion order, then sort with the comparator
(Array.prototype.sort, modelled by the stable merge sort jsSort). -/
def getEntitiesInRange (entities : List (String × EntityData)) (pos : Vec3)
    (range : ℚ) (excl : Option TeamType) : List (String × EntityData) :=
  jsSort entLe (entities.filter fun e => entPasses pos range excl e.2)

/-- An entry is of player type. -/
def isPlayerEnt (e : String × EntityData) : Bool :=
  e.2.type = EntityType.player

theorem entLe_player_first (a b : String × EntityData)
    (ha : isPlayerEnt a = true) (hb : isPlayerEnt b = false) : entLe a b = true := by
  have ha2 : a.2.type = EntityType.player := by
    simpa [isPlayerEnt] using ha
  have hb2 : b.2.type ≠ EntityType.player := by
    simpa [isPlayerEnt] using hb
  have hne : a.2.type ≠ b.2.type := fun h => hb2 (h ▸ ha2)
  have hc : entCmp a.2 b.2 = -1 := by
    unfold entCmp
    rw [if_pos hne, if_pos ha2]
  simp only [entLe, hc]
  decide

theorem entLe_nonplayer_after (a b : String × EntityData)
    (ha : isPlayerEnt a = false) (hb : isPlayerEnt b = true) : entLe a b = false := by
  have ha2 : a.2.type ≠ EntityType.player := by
    simpa [isPlayerEnt] using ha
  have hb2 : b.2.type = EntityType.player := by
    simpa [isPlayerEnt] using hb
  have hne : a.2.type ≠ b.2.type := fun h => ha2 (h.symm ▸ hb2)
  have hc : entCmp a.2 b.2 = 1 := by
    unfold entCmp
    rw [if_pos hne, if_neg ha2, if_pos hb2]
  simp only [entLe, hc]
  decide

/-! ## Health and damage model

Every damageable entity of the source carries the same takeDamage shape:
an early return when already destroyed, a plain subtraction, and a clamp
to zero that flips isDestroyed and fires a one-shot destruction effect.
The effects counter records how many times the destruction effect has been
triggered (the source adds an explosion mesh there). This embeds
base.takeDamage (src/src/utils.ts lines 137 to 183 and BaseScene.tsx lines
891 to 937), minion.takeDamage (part_004 lines 120 to 161 and BaseScene.tsx
lines 1254 to 1290), tower.takeDamage (part_008 lines 120 to 173 and the
other tower variants), and the monument takeDamage
(BaseScene.tsx lines 1053 to 1067). -/

/-- Common mutable health state of a damageable entity. -/
structure HealthState where
  health : ℚ
  maxHealth : ℚ
  isDestroyed : Bool
  effects : ℕ
deriving DecidableEq

/-- Embedding of the shared takeDamage implementation. -/
def takeDamage (s : HealthState) (amount : ℚ) : HealthState :=
  if s.isDestroyed then s
  else if s.health - amount ≤ 0 then
    { s with health := 0, isDestroyed := true, effects := s.effects + 1 }
  else
    { s with health := s.health - amount }

/-- Folding a sequence of takeDamage calls. -/
def applyDamages (s : HealthState) (ds : List ℚ) : HealthState :=
  ds.foldl takeDamage s

/-- Invariant of the health model: health lies between 0 and maxHealth and
the destroyed flag holds exactly when health is 0. Initial entities
(health = maxHealth > 0, not destroyed) satisfy it. -/
def HealthInv (s : HealthState) : Prop :=
  0 ≤ s.health ∧ s.health ≤ s.maxHealth ∧ (s.isDestroyed = true ↔ s.health = 0)

theorem takeDamage_of_destroyed (s : HealthState) (d : ℚ)
    (h : s.isDestroyed = true) : takeDamage s d = s := by
  simp [takeDamage, h]

theorem takeDamage_inv (s : HealthState) (d : ℚ) (hs : HealthInv s) (hd : 0 ≤ d) :
    HealthInv (takeDamage s d) := by
  obtain ⟨h0, hmax, hiff⟩ := hs
  unfold takeDamage HealthInv
  split_ifs with hdes hz
  · exact ⟨h0, hmax, hiff⟩
  · exact ⟨le_refl 0, le_trans h0 hmax, by simp⟩
  · push_neg at hz
    have hd0 : s.isDestroyed = false := by
      cases h : s.isDestroyed
      · rfl
      · exact absurd h hdes
    refine ⟨le_of_lt hz, by simpa using by linarith, ?_⟩
    simp only [hd0]
    constructor
    · intro h; exact absurd h (by simp)
    · intro h; simp only at h; linarith

theorem applyDamages_inv (s : HealthState) (hs : HealthInv s) (ds : List ℚ)
    (hds : ∀ d ∈ ds, 0 ≤ d) : HealthInv (applyDamages s ds) := by
  induction ds generalizing s with
  | nil => simpa [applyDamages] using hs
  | cons d ds ih =>
    have h1 : HealthInv (takeDamage s d) :=
      takeDamage_inv s d hs (hds d (List.mem_cons_self d ds))
    have h2 : ∀ e ∈ ds, 0 ≤ e := fun e he => hds e (List.mem_cons_of_mem d he)
    simpa [applyDamages] using ih (takeDamage s d) h1 h2

theorem applyDamages_destroyed_mono (s : HealthState) (ds : List ℚ)
    (h : s.isDestroyed = true) : applyDamages s ds = s := by
  induction ds with
  | nil => rfl
  | cons d ds ih =>
    simp only [applyDamages, List.foldl_cons, takeDamage_of_destroyed s d h]
    exact ih

/-- Embedding of the inline player damage paths in BaseScene.tsx (for
example lines 2272 to 2273 and 2326 to 2327): subtract and clamp at zero;
the player carries no isDestroyed flag. -/
def playerDamage (health amount : ℚ) : ℚ :=
  if health - amount < 0 then 0 else health - amount

/-! ## Base, monument and match reset (BaseScene.tsx)

createBase (lines 806 to 984) gives the outer base 1000 health and builds
the objective cylinder, crystal and crystal light; addHealthToMonument
(lines 987 to 1071) attaches a 500-point health pool to the objective via
userData. Destroying the outer base hides the crystal and light, greys the
objective and collapses it; destroying the monument greys the objective.
resetGame (lines 1125 to 1192) restores the outer base pools and the
visual state of crystal, objective and light. -/

/-- Monument (objective userData) health pool from addHealthToMonument. -/
structure MonumentState where
  health : ℚ
  maxHealth : ℚ
  isDestroyed : Bool
deriving DecidableEq

/-- Visual state touched by destruction and reset: crystal and crystal
light visibility, objective material color and emissive (hex values), and
objective scale and height. -/
structure BaseVisual where
  crystalVisible : Bool
  crystalLightVisible : Bool
  objColor : ℕ
  objEmissive : ℕ
  objScaleY : ℚ
  objPosY : ℚ
deriving DecidableEq

/-- Full state of one base: outer shell pool, visuals, and the inner
monument pool. -/
structure BaseState where
  isEnemy : Bool
  health : ℚ
  maxHealth : ℚ
  isDestroyed : Bool
  visual : BaseVisual
  monument : MonumentState
deriving DecidableEq

/-- Visual state as constructed by createBase. -/
def initVisual (isEnemy : Bool) : BaseVisual :=
  { crystalVisible := true
    crystalLightVisible := true
    objColor := if isEnemy then 0xff0000 else 0x0000ff
    objEmissive := if isEnemy then 0x330000 else 0x000033
    objScaleY := 1
    objPosY := 7 }

/-- Base as constructed by createBase followed by addHealthToMonument. -/
def initBase (isEnemy : Bool) : BaseState :=
  { isEnemy := isEnemy
    health := 1000
    maxHealth := 1000
    isDestroyed := false
    visual := initVisual isEnemy
    monument := { health := 500, maxHealth := 500, isDestroyed := false } }

/-- Embedding of base.takeDamage (BaseScene.tsx lines 891 to 937): early
return when destroyed; on reaching zero, hide crystal and light, grey the
objective and collapse it. -/
def baseTakeDamage (b : BaseState) (amount : ℚ) : BaseState :=
  if b.isDestroyed then b
  else if b.health - amount ≤ 0 then
    { b with
      health := 0
      isDestroyed := true
      visual := { b.visual with
        crystalVisible := false
        crystalLightVisible := false
        objColor := 0x555555
        objEmissive := 0
        objScaleY := 1/2
        objPosY := 5 } }
  else
    { b with health := b.health - amount }

/-- Embedding of objective.userData.takeDamage (BaseScene.tsx lines 1053
to 1067): early return when the monument is destroyed; on reaching zero,
grey the objective material. -/
def monumentTakeDamage (b : BaseState) (amount : ℚ) : BaseState :=
  if b.monument.isDestroyed then b
  else if b.monument.health - amount ≤ 0 then
    { b with
      monument := { b.monument with health := 0, isDestroyed := true }
      visual := { b.visual with objColor := 0x555555, objEmissive := 0 } }
  else
    { b with monument := { b.monument with health := b.monument.health - amount } }

/-- Embedding of the per-base part of resetGame (BaseScene.tsx lines 1135
to 1191): restore the outer pool to 1000, clear the outer destroyed flag,
and restore crystal, objective material, objective scale and position, and
light. The monument userData pool is not touched by resetGame. -/
def resetBase (b : BaseState) : BaseState :=
  { b with
    health := 1000
    isDestroyed := false
    visual := initVisual b.isEnemy }

/-- Embedding of resetGame (BaseScene.tsx lines 1125 to 1192) acting on
the pair of bases (ally, enemy). -/
def resetGame (p : BaseState × BaseState) : BaseState × BaseState :=
  (resetBase p.1, resetBase p.2)

/-! ## Projectile damage selection of the standalone minion (part_004)

animateProjectile (part_004 lines 272 to 298) applies damage on arrival:
a target with a direct takeDamage method receives the full minion damage;
otherwise, a target with userData.takeDamage receives reduced damage only
when userData.team is the ally or enemy tag (the isMonument test of lines
282 to 284), and the full damage otherwise. No object in the repository
ever sets userData.team, in particular addHealthToMonument does not. -/

/-- Ally or enemy team tag used by minions and bases. -/
inductive TeamAE where
  | ally
  | enemy
deriving DecidableEq

/-- Shape of an attack target as probed by animateProjectile. -/
structure AttackShape where
  hasTakeDamage : Bool
  hasUserTakeDamage : Bool
  userTeam : Option TeamAE
deriving DecidableEq

/-- Damage amount animateProjectile passes to the target, when a damage
method is found (part_004 lines 277 to 289). -/
def projectileDamageAmount (dmg : ℚ) (t : AttackShape) : Option ℚ :=
  if t.hasTakeDamage then some dmg
  else if t.hasUserTakeDamage then
    some (if t.userTeam = some TeamAE.ally ∨ t.userTeam = some TeamAE.enemy
          then dmg * 0.2 else dmg)
  else none

/-- Shape of a monument objective as built by addHealthToMonument: only
userData.takeDamage is present and userData.team is absent. -/
def monumentShape : AttackShape :=
  { hasTakeDamage := false, hasUserTakeDamage := true, userTeam := none }

/-! ## Projectile flight (minion and in-scene tower projectiles)

The projectile animations in BaseScene.tsx (lines 1386 to 1401 and 2445
to 2458) and part_004 (lines 272 to 298) run a callback once per frame:
call number k carries progress k times the increment; while the progress
is below 1 the projectile is only lerped along the path, and at the first
call with progress at least 1 the callback removes the projectile and
calls takeDamage on the stored target once. The state below is the
next-call progress, the target, and whether the flight has finished. -/

/-- State of the flight after a number of callback invocations. -/
def projIter (inc dmg : ℚ) (t0 : HealthState) : ℕ → ℚ × HealthState × Bool
  | 0 => (0, t0, false)
  | n + 1 =>
    let s := projIter inc dmg t0 n
    if s.2.2 then s
    else if 1 ≤ s.1 then (s.1, takeDamage s.2.1 dmg, true)
    else (s.1 + inc, s.2.1, false)

theorem projIter_progress (inc dmg : ℚ) (t0 : HealthState) :
    ∀ n, (projIter inc dmg t0 n).2.2 = false →
      (projIter inc dmg t0 n).1 = n * inc := by
  intro n
  induction n with
  | zero => intro _; simp [projIter]
  | succ n ih =>
    intro h
    simp only [projIter] at h ⊢
    by_cases hdone : (projIter inc dmg t0 n).2.2
    · simp [hdone] at h
    · simp only [hdone, if_false] at h ⊢
      by_cases harr : 1 ≤ (projIter inc dmg t0 n).1
      · simp [harr] at h
      · simp only [harr, if_false]
        have := ih (by simpa using hdone)
        rw [this]
        push_cast
        ring

theorem projIter_succ (inc dmg : ℚ) (t0 : HealthState) (m : ℕ) :
    projIter inc dmg t0 (m + 1) =
      if (projIter inc dmg t0 m).2.2 then projIter inc dmg t0 m
      else if 1 ≤ (projIter inc dmg t0 m).1 then
        ((projIter inc dmg t0 m).1, takeDamage (projIter inc dmg t0 m).2.1 dmg, true)
      else ((projIter inc dmg t0 m).1 + inc, (projIter inc dmg t0 m).2.1, false) :=
  rfl

theorem projIter_target (inc dmg : ℚ) (t0 : HealthState) :
    ∀ n, (projIter inc dmg t0 n).2.1 =
      if (projIter inc dmg t0 n).2.2 then takeDamage t0 dmg else t0 := by
  intro n
  induction n with
  | zero => simp [projIter]
  | succ n ih =>
    rw [projIter_succ]
    by_cases hdone : (projIter inc dmg t0 n).2.2
    · rw [if_pos hdone]
      exact ih
    · rw [if_neg hdone]
      by_cases harr : 1 ≤ (projIter inc dmg t0 n).1
      · rw [if_pos harr]
        have ht : (projIter inc dmg t0 n).2.1 = t0 := by simpa [hdone] using ih
        simp [ht]
      · rw [if_neg harr]
        simpa [hdone] using ih

theorem projIter_done_iff (inc dmg : ℚ) (t0 : HealthState) :
    ∀ n, (projIter inc dmg t0 n).2.2 = true ↔ ∃ k < n, 1 ≤ (k : ℚ) * inc := by
  intro n
  induction n with
  | zero => simp [projIter]
  | succ n ih =>
    rw [projIter_succ]
    by_cases hdone : (projIter inc dmg t0 n).2.2
    · rw [if_pos hdone]
      constructor
      · intro _
        obtain ⟨k, hk, hk2⟩ := ih.mp hdone
        exact ⟨k, Nat.lt_succ_of_lt hk, hk2⟩
      · intro _; exact hdone
    · rw [if_neg hdone]
      have hp := projIter_progress inc dmg t0 n (by simpa using hdone)
      by_cases harr : 1 ≤ (projIter inc dmg t0 n).1
      · rw [if_pos harr]
        constructor
        · intro _
          exact ⟨n, Nat.lt_succ_self n, hp ▸ harr⟩
        · intro _; rfl
      · rw [if_neg harr]
        constructor
        · intro h; exact absurd h (by simp)
        · intro h
          obtain ⟨k, hk, hk2⟩ := h
          rcases Nat.lt_succ_iff_lt_or_eq.mp hk with hk | rfl
          · exact absurd (ih.mpr ⟨k, hk, hk2⟩) (by simpa using hdone)
          · exact absurd (hp ▸ hk2) harr

/-! ## Standalone tower component (part_008, first variant)

createTower builds a tower with a shooting range indicator and a 500 ms
detection interval. detectEnemies (lines 217 to 263) queries the registry,
recolors the range indicator, and either fires shootAt at the position of
the highest-priority entry with a 2 second cooldown, or decrements the
cooldown by 0.5. shootAt (lines 266 to 389) animates a projectile from the
tower top to the target position snapshot and spawns impact meshes on
arrival; no statement in shootAt or its animation callback calls
takeDamage or writes any entity state, so the flight changes neither the
registry nor any target. -/

/-- State of the standalone tower that detectEnemies reads and writes. -/
structure TowerDet where
  position : Vec3
  team : TeamType
  shootingRange : ℚ
  attackCooldown : ℚ
  indicatorColor : ℕ
deriving DecidableEq

/-- Record of a fired visual projectile: start position (tower top) and
the target position snapshot taken at fire time. -/
structure TowerShot where
  startPos : Vec3
  targetPos : Vec3
deriving DecidableEq

/-- Embedding of tower.shootAt: the flight is purely visual, so its whole
observable effect is this record. -/
def shootAt (t : TowerDet) (target : Vec3) : TowerShot :=
  { startPos := { t.position with y := 13/2 }, targetPos := target }

/-- Embedding of tower.detectEnemies (part_008 lines 217 to 263): returns
the updated tower state, the fired shot when one is fired, and the
registry, which no branch of the method modifies. -/
def detectEnemies (t : TowerDet) (reg : List (String × EntityData)) :
    TowerDet × Option TowerShot × List (String × EntityData) :=
  let inRange := getEntitiesInRange reg t.position t.shootingRange (some t.team)
  match inRange with
  | [] =>
    ({ t with
        indicatorColor := 0xffff00
        attackCooldown := if 0 < t.attackCooldown then t.attackCooldown - 1/2
                          else t.attackCooldown },
     none, reg)
  | e :: _ =>
    if t.attackCooldown ≤ 0 then
      ({ t with indicatorColor := 0xff0000, attackCooldown := 2 },
       some (shootAt t e.2.position), reg)
    else
      ({ t with indicatorColor := 0xff0000, attackCooldown := t.attackCooldown - 1/2 },
       none, reg)

/-! ## Minion agent (BaseScene.tsx createMinion, lines 1202 to 1453)

The per-frame minion.update (lines 1337 to 1450): early return when
destroyed; decrement a positive attack cooldown; clear an attack target
that is destroyed or invisible; when a target remains and the cooldown is
now at most 0, face the target, fire a projectile if the target has a
takeDamage method, set the cooldown to 60 and return without moving;
otherwise move toward targetPosition at the minion speed in the XZ plane
and adjust the height over the base ramps. The rotation (atan2) is not
modelled; no claim concerns it. -/

/-- The fields of an attack target that minion.update reads. -/
structure TargetInfo where
  position : Vec3
  isDestroyed : Bool
  visible : Bool
  hasTakeDamage : Bool
deriving DecidableEq

/-- Minion state as set up by createMinion. -/
structure MinionState where
  position : Vec3
  team : TeamAE
  health : ℚ
  maxHealth : ℚ
  speed : ℚ
  isDestroyed : Bool
  targetPosition : Vec3
  attackTarget : Option TargetInfo
  attackCooldown : ℕ
  attackRange : ℚ
  damage : ℚ
deriving DecidableEq

/-- Height adjustment of BaseScene.tsx lines 1425 to 1449 with
LANE_SQUARE_SIZE = 145: inside radius 13 of a base center the minion
stands at height 3.25, between 13 and 18 the height interpolates linearly
down to 0, and elsewhere it is 0. The comparisons against 13 and 18 are
encoded on squared distances; the interpolated value divides the real
distance, computed by sqrtQ (exact whenever that distance is rational). -/
def minionHeight (x z : ℚ) : ℚ :=
  let dA2 := (x - (-145/2)) ^ 2 + (z - 145/2) ^ 2
  let dE2 := (x - 145/2) ^ 2 + (z - (-145/2)) ^ 2
  if dA2 < 13 ^ 2 then 13/4
  else if dA2 < 18 ^ 2 then 13/4 * (1 - (sqrtQ dA2 - 13) / 5)
  else if dE2 < 13 ^ 2 then 13/4
  else if dE2 < 18 ^ 2 then 13/4 * (1 - (sqrtQ dE2 - 13) / 5)
  else 0

/-- Movement step of minion.update (lines 1412 to 1449): step toward
targetPosition in the XZ plane at the minion speed, then set the height. -/
def minionMoveStep (m : MinionState) : MinionState :=
  let dir := normXZ ⟨m.targetPosition.x - m.position.x, 0,
                     m.targetPosition.z - m.position.z⟩
  let nx := m.position.x + dir.x * m.speed
  let nz := m.position.z + dir.z * m.speed
  { m with position := ⟨nx, minionHeight nx nz, nz⟩ }

/-- Cooldown decrement at the top of minion.update (lines 1341 to 1343). -/
def minionCooldownStep (m : MinionState) : MinionState :=
  if 0 < m.attackCooldown then { m with attackCooldown := m.attackCooldown - 1 } else m

/-- Target clearing of minion.update (lines 1346 to 1350): a destroyed or
invisible attack target is dropped. -/
def minionClearDeadTarget (m : MinionState) : MinionState :=
  match m.attackTarget with
  | some t => if t.isDestroyed || !t.visible then { m with attackTarget := none } else m
  | none => m

/-- Attack-or-move branch of minion.update (lines 1352 to 1449): with a
target and a cooldown of 0 the minion attacks (setting the cooldown to 60
when the target has a takeDamage method) and returns without moving; in
every other case it moves toward targetPosition. -/
def minionAttackOrMove (m : MinionState) : MinionState :=
  match m.attackTarget with
  | some t =>
    if m.attackCooldown = 0 then
      if t.hasTakeDamage then { m with attackCooldown := 60 } else m
    else
      minionMoveStep m
  | none => minionMoveStep m

/-- Embedding of minion.update (BaseScene.tsx lines 1337 to 1450). The
attack branch fires only when a live target is present and the cooldown,
after the decrement at the top of the frame, is at most 0; in every other
case the minion moves. -/
def minionUpdate (m : MinionState) : MinionState :=
  if m.isDestroyed then m
  else minionAttackOrMove (minionClearDeadTarget (minionCooldownStep m))

/-! ## Minion target acquisition (BaseScene.tsx lines 2527 to 2578)

For each minion without a target, updateTowerAttacks scans the other
minions (skipping destroyed ones and teammates) and the enemy towers
(skipping destroyed ones) within attackRange, and the enemy base within
attackRange + 15, tracking the strictly closest candidate (distances are
compared with THREE distanceTo; the embedding compares squares). The
standalone minion component part_004 (lines 224 to 235) instead acquires
only the enemy base monument, within attackRange + 10. -/

/-- A scanned candidate: position, destroyed flag, and team. -/
structure ScanEnt where
  position : Vec3
  isDestroyed : Bool
  team : TeamAE
deriving DecidableEq

/-- Acquired target reference. -/
inductive AcqTarget where
  | minionRef (e : ScanEnt)
  | towerRef (e : ScanEnt)
  | baseRef (p : Vec3)
deriving DecidableEq

/-- True when the candidate squared distance is strictly below the current
closest (Infinity when no candidate has been kept yet). -/
def closerB (d2 : ℚ) (acc : Option (AcqTarget × ℚ)) : Bool :=
  match acc with
  | none => true
  | some (_, c) => decide (d2 < c)

/-- One step of the closest-candidate scan: keep the candidate when it is
eligible, within the squared range bound, and strictly closer than the
best so far. -/
def scanStep (pos : Vec3) (r2 : ℚ) (elig : ScanEnt → Bool) (mk : ScanEnt → AcqTarget)
    (acc : Option (AcqTarget × ℚ)) (e : ScanEnt) : Option (AcqTarget × ℚ) :=
  let d2 := dist3Sq pos e.position
  if elig e && decide (d2 ≤ r2) && closerB d2 acc then some (mk e, d2) else acc

/-- Scan of the enemy minions (lines 2538 to 2546) followed by the scan of
the enemy towers (lines 2553 to 2561): both use the attackRange bound and
track the strictly closest candidate, starting from none (Infinity). -/
def acquireScan (m : MinionState) (others towers : List ScanEnt) :
    Option (AcqTarget × ℚ) :=
  towers.foldl
    (scanStep m.position (m.attackRange ^ 2) (fun e => !e.isDestroyed) AcqTarget.towerRef)
    (others.foldl
      (scanStep m.position (m.attackRange ^ 2)
        (fun e => !e.isDestroyed && !(e.team = m.team : Bool)) AcqTarget.minionRef) none)

/-- The enemy base check (lines 2563 to 2572): the base is a candidate
within attackRange + 15 and replaces the best so far when strictly
closer. -/
def acquireBaseStep (m : MinionState) (acc : Option (AcqTarget × ℚ)) :
    Option Vec3 → Option (AcqTarget × ℚ)
  | some bp =>
    if decide (dist3Sq m.position bp ≤ (m.attackRange + 15) ^ 2)
        && closerB (dist3Sq m.position bp) acc then
      some (AcqTarget.baseRef bp, dist3Sq m.position bp)
    else acc
  | none => acc

/-- Embedding of the acquisition block of updateTowerAttacks (BaseScene.tsx
lines 2527 to 2578) for one minion: returns the newly acquired target and
its squared distance, or none. The caller skips minions that are destroyed
or already have a target; those guards are part of the surrounding forEach
and appear here as the first two conditions. -/
def acquireTarget (m : MinionState) (others : List ScanEnt) (towers : List ScanEnt)
    (basePos : Option Vec3) : Option (AcqTarget × ℚ) :=
  if m.isDestroyed then none
  else if m.attackTarget.isSome then none
  else acquireBaseStep m (acquireScan m others towers) basePos

/-- Embedding of the monument acquisition of the standalone minion
component (part_004 lines 224 to 235): with no current target, a live
monument is acquired when its distance from the minion is at most
attackRange + 10. -/
def monumentAggro (m : MinionState) (monPos : Vec3) (monDestroyed : Bool) : Bool :=
  !m.isDestroyed && m.attackTarget.isNone && !monDestroyed &&
    decide (dist3Sq m.position monPos ≤ (m.attackRange + 10) ^ 2)

/-- The best-so-far distance is at most q. -/
def AccLe (acc : Option (AcqTarget × ℚ)) (q : ℚ) : Prop :=
  ∃ c d, acc = some (c, d) ∧ d ≤ q

theorem scanStep_accLe (pos : Vec3) (r2 : ℚ) (elig : ScanEnt → Bool)
    (mk : ScanEnt → AcqTarget) (acc : Option (AcqTarget × ℚ)) (e : ScanEnt)
    (q : ℚ) (h : AccLe acc q) : AccLe (scanStep pos r2 elig mk acc e) q := by
  obtain ⟨c, d, hacc, hd⟩ := h
  unfold scanStep
  by_cases hkeep : (elig e && decide (dist3Sq pos e.position ≤ r2)
      && closerB (dist3Sq pos e.position) acc) = true
  · rw [if_pos hkeep]
    have hcl : closerB (dist3Sq pos e.position) acc = true := by
      simp only [Bool.and_eq_true] at hkeep
      exact hkeep.2
    rw [hacc] at hcl
    simp only [closerB, decide_eq_true_eq] at hcl
    exact ⟨mk e, dist3Sq pos e.position, rfl, le_of_lt (lt_of_lt_of_le hcl hd)⟩
  · rw [if_neg hkeep]
    exact ⟨c, d, hacc, hd⟩

theorem scanStep_hits (pos : Vec3) (r2 : ℚ) (elig : ScanEnt → Bool)
    (mk : ScanEnt → AcqTarget) (acc : Option (AcqTarget × ℚ)) (e : ScanEnt)
    (helig : elig e = true) (hr : dist3Sq pos e.position ≤ r2) :
    AccLe (scanStep pos r2 elig mk acc e) (dist3Sq pos e.position) := by
  unfold scanStep
  by_cases hcl : closerB (dist3Sq pos e.position) acc = true
  · rw [if_pos (by simp [helig, hr, hcl])]
    exact ⟨mk e, _, rfl, le_refl _⟩
  · rw [if_neg (by simp [hcl])]
    match acc, hcl with
    | some (c, d), hcl =>
      refine ⟨c, d, rfl, ?_⟩
      simp only [closerB, decide_eq_true_eq] at hcl
      exact le_of_not_lt (fun h => hcl (by simpa using h))
    | none, hcl => simp [closerB] at hcl

theorem scanFold_accLe (pos : Vec3) (r2 : ℚ) (elig : ScanEnt → Bool)
    (mk : ScanEnt → AcqTarget) (l : List ScanEnt) (acc : Option (AcqTarget × ℚ))
    (q : ℚ) (h : AccLe acc q) :
    AccLe (l.foldl (scanStep pos r2 elig mk) acc) q := by
  induction l generalizing acc with
  | nil => exact h
  | cons e l ih =>
    exact ih _ (scanStep_accLe pos r2 elig mk acc e q h)

theorem scanFold_best (pos : Vec3) (r2 : ℚ) (elig : ScanEnt → Bool)
    (mk : ScanEnt → AcqTarget) (l : List ScanEnt) (acc : Option (AcqTarget × ℚ))
    (e : ScanEnt) (he : e ∈ l) (helig : elig e = true)
    (hr : dist3Sq pos e.position ≤ r2) :
    AccLe (l.foldl (scanStep pos r2 elig mk) acc) (dist3Sq pos e.position) := by
  induction l generalizing acc with
  | nil => cases he
  | cons a l ih =>
    rcases List.mem_cons.mp he with rfl | he2
    · exact scanFold_accLe pos r2 elig mk l _ _
        (scanStep_hits pos r2 elig mk acc e helig hr)
    · exact ih _ he2

theorem scanFold_sound (pos : Vec3) (r2 : ℚ) (elig : ScanEnt → Bool)
    (mk : ScanEnt → AcqTarget) (l : List ScanEnt) (acc : Option (AcqTarget × ℚ)) :
    l.foldl (scanStep pos r2 elig mk) acc = acc ∨
      ∃ e ∈ l, elig e = true ∧ dist3Sq pos e.position ≤ r2 ∧
        l.foldl (scanStep pos r2 elig mk) acc = some (mk e, dist3Sq pos e.position) := by
  induction l generalizing acc with
  | nil => exact Or.inl rfl
  | cons a l ih =>
    rcases ih (scanStep pos r2 elig mk acc a) with h | ⟨e, he, h1, h2, h3⟩
    · simp only [List.foldl_cons, h]
      unfold scanStep
      by_cases hkeep : (elig a && decide (dist3Sq pos a.position ≤ r2)
          && closerB (dist3Sq pos a.position) acc) = true
      · simp only [Bool.and_eq_true, decide_eq_true_eq] at hkeep
        exact Or.inr ⟨a, List.mem_cons_self a l, hkeep.1.1, hkeep.1.2, by
          rw [if_pos (by simp [hkeep.1.1, hkeep.1.2, hkeep.2])]⟩
      · rw [if_neg hkeep]
        exact Or.inl rfl
    · exact Or.inr ⟨e, List.mem_cons_of_mem a he, h1, h2, by
        simpa [List.foldl_cons] using h3⟩

/-! ## Tower-kill scenario (BaseScene.tsx updateTowerAttacks and animate)

The in-scene towers (lines 2407 to 2465) fire when not destroyed and the
cooldown is at most 0, at the closest live enemy minion within
shootingRange 15; firing runs animateProjectile(0) immediately (progress 0,
below 1, so the first damage-capable call happens on the next frame with
progress 0.05) and sets the cooldown to 45. The animate loop (lines 2582
to 2681) runs updateTowerAttacks, then the minion updates, then decrements
positive tower cooldowns; projectile continuation callbacks registered
during a frame run at the start of the next frame. The scenario fixes one
tower at the origin and one 100-health minion held stationary at distance
10 (claim hypothesis: the minion stays within range) that takes 50 damage
per projectile arrival. -/

/-- Scenario state: tower cooldown, pending projectile progresses (value
carried by the next callback invocation), the minion health state, and the
number of shots fired so far. -/
structure TKState where
  cooldown : ℕ
  pending : List ℚ
  minion : HealthState
  shots : ℕ
deriving DecidableEq

/-- Position of the scenario tower. -/
def tkTowerPos : Vec3 := ⟨0, 0, 0⟩

/-- Position of the scenario minion, at distance 10 from the tower. -/
def tkMinionPos : Vec3 := ⟨6, 0, 8⟩

/-- Run the pending projectile callbacks of one frame: a callback with
progress at least 1 removes the projectile and applies 50 damage
(line 2449); otherwise the projectile advances by 0.05 (line 2457). -/
def tkProjectiles (s : TKState) : TKState :=
  let r := s.pending.foldl
    (fun (acc : List ℚ × HealthState) p =>
      if 1 ≤ p then (acc.1, takeDamage acc.2 50)
      else (acc.1 ++ [p + 0.05], acc.2))
    ([], s.minion)
  { s with pending := r.1, minion := r.2 }

/-- The tower part of updateTowerAttacks (lines 2409 to 2465) specialised
to the scenario: skip when on cooldown; fire at the minion when it is
alive and within squared range, adding a projectile whose next callback
carries progress 0.05 and setting the cooldown to 45. -/
def tkTower (s : TKState) : TKState :=
  if 0 < s.cooldown then s
  else if !s.minion.isDestroyed && sqDistLe (dist3Sq tkTowerPos tkMinionPos) 15 then
    { s with pending := s.pending ++ [0.05], shots := s.shots + 1, cooldown := 45 }
  else s

/-- Cooldown decrement of the animate loop (lines 2597 to 2601). -/
def tkCooldown (s : TKState) : TKState :=
  if 0 < s.cooldown then { s with cooldown := s.cooldown - 1 } else s

/-- One frame of the scenario. -/
def tkFrame (s : TKState) : TKState :=
  tkCooldown (tkTower (tkProjectiles s))

/-- Scenario start: fresh tower and a fresh 100-health minion. -/
def tkInit : TKState :=
  { cooldown := 0, pending := [], minion := ⟨100, 100, false, 0⟩, shots := 0 }

/-- State after n frames of the scenario. -/
def tkRun (n : ℕ) : TKState :=
  tkFrame^[n] tkInit

/-! ## Player controller (BaseScene.tsx updateMovement and animate)

updateMovement (lines 2169 to 2400): with a move target, either clear it
when within 0.1 units or set the facing direction toward it; step the
position by direction times speed (times 1.5 while sprinting); reject the
step entirely on collision with a base objective (radius 3 plus player
radius 0.5) and cancel the target; clamp to the playable area (175) and
cancel the target on the boundary; set the height from the base ramps.
Nothing in updateMovement reads the player health, so a dead player with a
target keeps moving. The death branch of animate (lines 2603 to 2668)
hides the avatar, counts the respawn display down from 5 to 0, and after
5 seconds restores health, position, target and visibility. -/

/-- Player state as read and written by updateMovement and the
death/respawn code. -/
structure PlayerState where
  position : Vec3
  direction : Vec3
  speed : ℚ
  sprint : Bool
  targetPosition : Option Vec3
  health : ℚ
  maxHealth : ℚ
  visible : Bool
deriving DecidableEq

/-- Ally base center with LANE_SQUARE_SIZE = 145. -/
def allyBaseCenter : Vec3 := ⟨-145/2, 0, 145/2⟩

/-- Enemy base center with LANE_SQUARE_SIZE = 145. -/
def enemyBaseCenter : Vec3 := ⟨145/2, 0, -145/2⟩

/-- The respawn point (line 2658): 5 units inside the ally base corner. -/
def allySpawn : Vec3 := ⟨-145/2 + 5, 0, 145/2 - 5⟩

/-- Height of the player over the base ramps (lines 2348 to 2368), same
ramp shape as the minions. -/
def playerHeight (x z : ℚ) : ℚ := minionHeight x z

/-- Boundary half-size of the playable area (175). -/
def playHalf : ℚ := 175/2

/-- Target seeking of updateMovement (lines 2170 to 2186): clear the
target within 0.1 units of it, otherwise face it. -/
def playerSeekTarget (p : PlayerState) : PlayerState :=
  match p.targetPosition with
  | some t =>
    if (t.x - p.position.x) ^ 2 + (t.z - p.position.z) ^ 2 < (1/10) ^ 2 then
      { p with targetPosition := none, direction := ⟨0, 0, 0⟩ }
    else
      { p with direction := normXZ ⟨t.x - p.position.x, 0, t.z - p.position.z⟩ }
  | none => p

/-- Clamp a coordinate into the playable area (lines 2372 to 2373). -/
def clampPlay (x : ℚ) : ℚ :=
  max (-playHalf) (min playHalf x)

/-- Position stepping of updateMovement (lines 2188 to 2400): step by
direction times speed (times 1.5 while sprinting), reject the step on
collision with a base objective (radius 3 plus player radius 0.5, compared
on squares) and cancel the target, clamp into the playable area, set the
ramp height, and cancel the target on the boundary. -/
def playerStep (p1 : PlayerState) : PlayerState :=
  let moveSpeed := if p1.sprint then p1.speed * 1.5 else p1.speed
  let nx := p1.position.x + p1.direction.x * moveSpeed
  let nz := p1.position.z + p1.direction.z * moveSpeed
  let p2 :=
    if (nx - allyBaseCenter.x) ^ 2 + (nz - allyBaseCenter.z) ^ 2 < (7/2) ^ 2 ∨
       (nx - enemyBaseCenter.x) ^ 2 + (nz - enemyBaseCenter.z) ^ 2 < (7/2) ^ 2 then
      { p1 with targetPosition := none, direction := ⟨0, 0, 0⟩ }
    else
      { p1 with position := ⟨clampPlay nx, p1.position.y, clampPlay nz⟩ }
  let p3 := { p2 with position := ⟨p2.position.x, playerHeight p2.position.x p2.position.z,
                                   p2.position.z⟩ }
  if p3.position.x = -playHalf ∨ p3.position.x = playHalf ∨
     p3.position.z = -playHalf ∨ p3.position.z = playHalf then
    { p3 with targetPosition := none, direction := ⟨0, 0, 0⟩ }
  else p3

/-- Embedding of updateMovement (BaseScene.tsx lines 2169 to 2400). -/
def updateMovement (p : PlayerState) : PlayerState :=
  playerStep (playerSeekTarget p)

/-- Death transition of the animate loop (line 2604): a dead, still
visible player is hidden (and the respawn timers are started). -/
def deathTransition (p : PlayerState) : PlayerState :=
  if p.health ≤ 0 ∧ p.visible = true then { p with visible := false } else p

/-- Displayed values of the respawn countdown (lines 2638 to 2651): the
display shows r, then recurses while the decremented value is at least 0,
so starting from 5 the display shows 5, 4, 3, 2, 1, 0. -/
def respawnCountdown : ℕ → List ℕ
  | 0 => [0]
  | r + 1 => (r + 1) :: respawnCountdown r

/-- The respawn action (lines 2654 to 2667): restore health to max, show
the avatar, move to the ally spawn point and clear the move target. -/
def respawnPlayer (p : PlayerState) : PlayerState :=
  { p with health := p.maxHealth, visible := true, position := allySpawn,
           targetPosition := none }

/-! ## Concrete states used by the counterexamples and witnesses -/

/-- A red minion entry at distance 1 from the origin with health 100. -/
def cxEntM1 : EntityData :=
  ⟨⟨1, 0, 0⟩, TeamType.red, EntityType.minion, some 100, some 100, true⟩

/-- A red tower entry at distance 2 from the origin with health 1. -/
def cxEntT1 : EntityData :=
  ⟨⟨2, 0, 0⟩, TeamType.red, EntityType.tower, some 1, some 300, true⟩

/-- A red minion entry 5 units above the origin: its XZ distance from the
origin is 0 but its 3D distance is 5. -/
def cxEntHigh : EntityData :=
  ⟨⟨0, 5, 0⟩, TeamType.red, EntityType.minion, some 7, some 100, true⟩

/-- Registry with the three entries above, in insertion order. -/
def cxRegistry : List (String × EntityData) :=
  [("m1", cxEntM1), ("t1", cxEntT1), ("high", cxEntHigh)]

/-- A live attackable target 1 unit from the origin. -/
def cxTarget : TargetInfo := ⟨⟨1, 0, 0⟩, false, true, true⟩

/-- A minion at the origin with a live attack target and a cooldown of 2
frames. -/
def cxMinion : MinionState :=
  ⟨⟨0, 0, 0⟩, TeamAE.ally, 100, 100, 1/20, false, ⟨30, 0, 40⟩, some cxTarget, 2, 5, 20⟩

/-- The same minion without an attack target, as scanned by the
acquisition pass. -/
def cxMinionFree : MinionState :=
  { cxMinion with attackTarget := none }

/-- The standalone tower of part_008 at the origin with range 15 and no
cooldown. -/
def cxTower : TowerDet := ⟨⟨0, 0, 0⟩, TeamType.red, 15, 0, 0xffff00⟩

/-- Registry holding one blue minion with 100 health at distance 5 from
the origin. -/
def cxTowerRegistry : List (String × EntityData) :=
  [("m1", ⟨⟨3, 0, 4⟩, TeamType.blue, EntityType.minion, some 100, some 100, true⟩)]

/-- A dead, hidden player who still has a move target 50 units away. -/
def cxDeadPlayer : PlayerState :=
  ⟨⟨0, 0, 0⟩, ⟨0, 0, 0⟩, 3/20, false, some ⟨30, 0, 40⟩, 0, 100, false⟩

/-- A dead player who is still visible (the frame before the death
transition hides the avatar). -/
def cxDyingPlayer : PlayerState :=
  ⟨⟨0, 0, 0⟩, ⟨0, 0, 0⟩, 3/20, false, none, 0, 100, true⟩

/-! ## Claims -/

/-- Claim C1, counterexample. The claim states that getEntitiesInRange
keeps exactly the alive entries within Euclidean XZ-planar distance of the
origin at most the radius, sorted players first and then by ascending
health among entries that both report a health value. On this registry the
query at the origin with radius 3 excludes the entry high, whose XZ
distance is 0, because the source measures the full 3D distance
(THREE.Vector3.distanceTo), and it returns the minion with health 100
before the tower with health 1 even though both report health, because the
comparator returns 0 for any non-player pair of distinct types. -/
theorem c1_range_query_counterexample :
    ((getEntitiesInRange cxRegistry ⟨0, 0, 0⟩ 3 none).map
        fun e => (e.1, e.2.health)) = [("m1", some 100), ("t1", some 1)]
    ∧ distXZSq ⟨0, 0, 0⟩ cxEntHigh.position ≤ 3 ^ 2
    ∧ cxEntHigh.isAlive = true
    ∧ ¬((100 : ℚ) ≤ 1) := by
  refine ⟨?_, ?_, rfl, by norm_num⟩
  · norm_num +decide [getEntitiesInRange, cxRegistry, cxEntM1, cxEntT1, cxEntHigh, jsSort,
      msortFuel, mergeFuel, entPasses, sqDistLe, dist3Sq, entLe, entCmp, List.filter]
  · norm_num [distXZSq, cxEntHigh]

/-- Claim C1, amended. getEntitiesInRange returns exactly the entries that
are alive, lie within full 3D Euclidean distance of the origin at most the
radius, and (when excludeTeam is given) are not on that team: the result
is a permutation of the filtered entries, every membership in the result
is equivalent to passing that filter, and every player-type entry precedes
every non-player entry. Finer ordering is not guaranteed: the comparator
is not a total order (distinct non-player types compare equal), so the
result is only some stable sort of the filtered entries. -/
theorem c1_range_query_amended (entities : List (String × EntityData)) (pos : Vec3)
    (range : ℚ) (excl : Option TeamType) :
    (getEntitiesInRange entities pos range excl).Perm
      (entities.filter fun e => entPasses pos range excl e.2)
    ∧ (∀ x, x ∈ getEntitiesInRange entities pos range excl ↔
        (x ∈ entities ∧ x.2.isAlive = true ∧
          (∀ t, excl = some t → x.2.team ≠ t) ∧
          0 ≤ range ∧ dist3Sq pos x.2.position ≤ range ^ 2))
    ∧ FrontBlock isPlayerEnt (getEntitiesInRange entities pos range excl) := by
  refine ⟨jsSort_perm _ _, ?_, jsSort_frontBlock entLe isPlayerEnt
    entLe_player_first entLe_nonplayer_after _⟩
  intro x
  unfold getEntitiesInRange
  rw [(jsSort_perm entLe _).mem_iff, List.mem_filter]
  unfold entPasses sqDistLe
  constructor
  · rintro ⟨hx, hpass⟩
    simp only [Bool.and_eq_true, decide_eq_true_eq] at hpass
    refine ⟨hx, hpass.1.1, ?_, hpass.2.1, hpass.2.2⟩
    intro t ht
    subst ht
    intro hteam
    simp [hteam] at hpass
  · rintro ⟨hx, halive, hteam, hr, hd⟩
    refine ⟨hx, ?_⟩
    simp only [Bool.and_eq_true, decide_eq_true_eq]
    refine ⟨⟨halive, ?_⟩, hr, hd⟩
    cases excl with
    | none => rfl
    | some t =>
      simpa using hteam t rfl

/-- Witness for claim C1 on the concrete registry: the minion entry at
distance 1 is a member of the query result. -/
theorem c1_range_query_witness :
    ("m1", cxEntM1) ∈ getEntitiesInRange cxRegistry ⟨0, 0, 0⟩ 3 none :=
  ((c1_range_query_amended cxRegistry ⟨0, 0, 0⟩ 3 none).2.1 ("m1", cxEntM1)).mpr
    ⟨by norm_num [cxRegistry], rfl,
     by intro t ht; exact absurd ht (by simp),
     by norm_num, by norm_num [dist3Sq, cxEntM1]⟩

/-- Claim C2: the claim states that resetGame restores both monuments to
health equal to maxHealth with isDestroyed false and all visual damage
state cleared. The code resets the outer base pools and the visuals but
never writes objective.userData.health or objective.userData.isDestroyed:
after the ally monument is destroyed (500 damage) and the enemy monument
is damaged to 400, resetGame leaves the ally monument destroyed at health
0 and the enemy monument at health 400, while the outer pools and the
visual state are restored. -/
theorem c2_reset_misses_monument :
    (resetGame (monumentTakeDamage (initBase false) 500,
                monumentTakeDamage (initBase true) 100)).1.monument
        = { health := 0, maxHealth := 500, isDestroyed := true }
    ∧ (resetGame (monumentTakeDamage (initBase false) 500,
                  monumentTakeDamage (initBase true) 100)).2.monument
        = { health := 400, maxHealth := 500, isDestroyed := false }
    ∧ (resetGame (monumentTakeDamage (initBase false) 500,
                  monumentTakeDamage (initBase true) 100)).1.health = 1000
    ∧ (resetGame (monumentTakeDamage (initBase false) 500,
                  monumentTakeDamage (initBase true) 100)).1.isDestroyed = false
    ∧ (resetGame (monumentTakeDamage (initBase false) 500,
                  monumentTakeDamage (initBase true) 100)).1.visual = initVisual false := by
  norm_num [resetGame, resetBase, monumentTakeDamage, initBase, initVisual]

/-- Claim C3: for every damageable entity and every sequence of
non-negative damage amounts, after each takeDamage call the health lies
between 0 and maxHealth, and isDestroyed holds exactly when health is 0,
so the destroyed flag turns on precisely at the call on which health
reaches 0; moreover once destroyed an entity stays destroyed under
further damage (only an explicit reset clears the flag). The shared
takeDamage shape covers base, tower, minion and monument; the player
damage path has no destroyed flag and only clamps, which the final
conjunct records. -/
theorem c3_damage_clamp (s : HealthState) (hs : HealthInv s) (ds : List ℚ)
    (hds : ∀ d ∈ ds, 0 ≤ d) (n : ℕ) :
    (0 ≤ (applyDamages s (ds.take n)).health
      ∧ (applyDamages s (ds.take n)).health ≤ (applyDamages s (ds.take n)).maxHealth
      ∧ ((applyDamages s (ds.take n)).isDestroyed = true
          ↔ (applyDamages s (ds.take n)).health = 0))
    ∧ (∀ m, n ≤ m → (applyDamages s (ds.take n)).isDestroyed = true →
        (applyDamages s (ds.take m)).isDestroyed = true)
    ∧ (∀ h d : ℚ, 0 ≤ h → 0 ≤ d → 0 ≤ playerDamage h d ∧ playerDamage h d ≤ h) := by
  refine ⟨?_, ?_, ?_⟩
  · exact applyDamages_inv s hs (ds.take n)
      (fun d hd => hds d (List.take_subset n ds hd))
  · intro m hm hdes
    have hsplit : ds.take m = ds.take n ++ (ds.drop n).take (m - n) := by
      rw [← List.take_add]
      congr 1
      omega
    rw [hsplit]
    unfold applyDamages
    rw [List.foldl_append]
    have := applyDamages_destroyed_mono (applyDamages s (ds.take n))
      ((ds.drop n).take (m - n)) hdes
    unfold applyDamages at this
    rw [this]
    exact hdes
  · intro h d hh hd
    unfold playerDamage
    split_ifs with hneg
    · exact ⟨le_refl 0, hh⟩
    · push_neg at hneg
      exact ⟨hneg, by linarith⟩

/-- Witness for claim C3 at a concrete entity and damage sequence. -/
theorem c3_damage_clamp_witness :
    0 ≤ (applyDamages ⟨100, 100, false, 0⟩ ([60, 50, 7].take 2)).health
    ∧ (applyDamages ⟨100, 100, false, 0⟩ ([60, 50, 7].take 2)).health
        ≤ (applyDamages ⟨100, 100, false, 0⟩ ([60, 50, 7].take 2)).maxHealth
    ∧ ((applyDamages ⟨100, 100, false, 0⟩ ([60, 50, 7].take 2)).isDestroyed = true
        ↔ (applyDamages ⟨100, 100, false, 0⟩ ([60, 50, 7].take 2)).health = 0) :=
  (c3_damage_clamp ⟨100, 100, false, 0⟩ (by norm_num [HealthInv])
    [60, 50, 7] (by norm_num) 2).1

/-- Claim C4: calling takeDamage on an already-destroyed entity changes
nothing at all (health, flags, and the one-shot destruction effect state
are untouched) and raises no error; the same early return guards the base
shell and the monument pool. -/
theorem c4_destroyed_noop :
    (∀ (s : HealthState) (d : ℚ), s.isDestroyed = true → takeDamage s d = s)
    ∧ (∀ (b : BaseState) (a : ℚ), b.isDestroyed = true → baseTakeDamage b a = b)
    ∧ (∀ (b : BaseState) (a : ℚ), b.monument.isDestroyed = true →
        monumentTakeDamage b a = b) := by
  refine ⟨takeDamage_of_destroyed, ?_, ?_⟩
  · intro b a h
    simp [baseTakeDamage, h]
  · intro b a h
    simp [monumentTakeDamage, h]

/-- Witness for claim C4 on a concrete destroyed entity. -/
theorem c4_destroyed_noop_witness :
    takeDamage ⟨0, 100, true, 1⟩ 50 = ⟨0, 100, true, 1⟩ :=
  c4_destroyed_noop.1 ⟨0, 100, true, 1⟩ 50 rfl

/-- Claim C5, counterexample. The claim states that every projectile fired
by an attacker applies the attacker damage via takeDamage on the stored
target on arrival, and in particular that a tower projectile reduces its
target health on arrival. The standalone tower of part_008 fires
(detectEnemies finds the registry minion in range and calls shootAt,
setting the 2 second cooldown), yet its projectile is purely visual: the
registry is returned unchanged and the target health stays 100 forever. -/
theorem c5_tower_projectile_counterexample :
    ((detectEnemies cxTower cxTowerRegistry).2.1).isSome = true
    ∧ (detectEnemies cxTower cxTowerRegistry).1.attackCooldown = 2
    ∧ (detectEnemies cxTower cxTowerRegistry).2.2 = cxTowerRegistry
    ∧ ((cxTowerRegistry.map fun e => e.2.health) = [some 100]) := by
  refine ⟨?_, ?_, ?_, rfl⟩ <;>
    norm_num +decide [detectEnemies, cxTower, cxTowerRegistry, getEntitiesInRange, jsSort,
      msortFuel, mergeFuel, entPasses, sqDistLe, dist3Sq, entLe, entCmp, shootAt, List.filter]

/-- Claim C5, amended. The projectile flights that do apply damage (the
minion projectiles of part_004 and BaseScene and the in-scene tower
projectiles of updateTowerAttacks) call takeDamage on the stored target
exactly once, at the first callback whose interpolation progress has
reached 1, and never before: while the flight is unfinished the target is
untouched, when it finishes the target has received exactly one takeDamage
call, and the flight finishes exactly when some callback index k below the
call count satisfies k times the increment at least 1. The standalone
tower component is the exception the original claim misses: its
detectEnemies and shootAt never modify the registry at all. -/
theorem c5_projectile_arrival_amended :
    (∀ (inc dmg : ℚ) (t0 : HealthState) (n : ℕ),
      ((projIter inc dmg t0 n).2.2 = false → (projIter inc dmg t0 n).2.1 = t0)
      ∧ ((projIter inc dmg t0 n).2.2 = true →
          (projIter inc dmg t0 n).2.1 = takeDamage t0 dmg)
      ∧ ((projIter inc dmg t0 n).2.2 = true ↔ ∃ k < n, 1 ≤ (k : ℚ) * inc))
    ∧ (∀ (t : TowerDet) (reg : List (String × EntityData)),
        (detectEnemies t reg).2.2 = reg) := by
  constructor
  · intro inc dmg t0 n
    refine ⟨?_, ?_, projIter_done_iff inc dmg t0 n⟩
    · intro h
      have ht := projIter_target inc dmg t0 n
      rw [h] at ht
      simpa using ht
    · intro h
      have ht := projIter_target inc dmg t0 n
      rw [h] at ht
      simpa using ht
  · intro t reg
    unfold detectEnemies
    rcases hE : getEntitiesInRange reg t.position t.shootingRange (some t.team) with - | ⟨e, rest⟩ <;>
      by_cases hc : t.attackCooldown ≤ 0 <;>
      simp [hE, hc]

/-- Witness for claim C5: a flight with increment one tenth leaves the
target untouched after 5 callbacks and has applied exactly one takeDamage
call after 12 callbacks; the standalone tower leaves the concrete registry
unchanged. -/
theorem c5_projectile_arrival_witness :
    (projIter (1/10) 20 ⟨100, 100, false, 0⟩ 5).2.1 = ⟨100, 100, false, 0⟩
    ∧ (projIter (1/10) 20 ⟨100, 100, false, 0⟩ 12).2.1
        = takeDamage ⟨100, 100, false, 0⟩ 20
    ∧ (detectEnemies cxTower cxTowerRegistry).2.2 = cxTowerRegistry :=
  ⟨(c5_projectile_arrival_amended.1 (1/10) 20 ⟨100, 100, false, 0⟩ 5).1
      (by norm_num [projIter]),
   (c5_projectile_arrival_amended.1 (1/10) 20 ⟨100, 100, false, 0⟩ 12).2.1
      (by norm_num [projIter, takeDamage]),
   c5_projectile_arrival_amended.2 cxTower cxTowerRegistry⟩

/-- Claim C6, counterexample. The claim states that a minion with a live
attack target and a positive cooldown keeps its X and Z position unchanged
during the update. The concrete minion has a live target and cooldown 2,
yet the update moves it: the attack branch requires the decremented
cooldown to be 0, so on cooldown frames the movement code runs. -/
theorem c6_stationary_counterexample :
    cxMinion.attackTarget = some cxTarget
    ∧ cxTarget.isDestroyed = false ∧ cxTarget.visible = true
    ∧ 0 < cxMinion.attackCooldown
    ∧ (minionUpdate cxMinion).position.x = 3/100
    ∧ cxMinion.position.x = 0 := by
  refine ⟨rfl, rfl, rfl, by norm_num [cxMinion], ?_, rfl⟩
  have h2500 : sqrtQ (2500 : ℚ) = 50 := by
    rw [show (2500 : ℚ) = 50 * 50 by norm_num, sqrtQ_sq 50 (by norm_num)]
  norm_num [minionUpdate, minionCooldownStep, minionClearDeadTarget, minionAttackOrMove,
    minionMoveStep, cxMinion, cxTarget, normXZ, h2500]

/-- Claim C6, amended. A minion with a live attack target is stationary
exactly on the frames on which it can fire: when the cooldown entering the
frame is at most 1 (so the decrement brings it to 0), the update leaves
the position unchanged; when the cooldown entering the frame exceeds 1,
the update is the ordinary movement step toward targetPosition applied to
the minion with the decremented cooldown. -/
theorem c6_attack_stationary_amended (m : MinionState) (t : TargetInfo)
    (hd : m.isDestroyed = false) (ht : m.attackTarget = some t)
    (hlive : t.isDestroyed = false) (hvis : t.visible = true) :
    (m.attackCooldown ≤ 1 → (minionUpdate m).position = m.position)
    ∧ (1 < m.attackCooldown →
        minionUpdate m = minionMoveStep { m with attackCooldown := m.attackCooldown - 1 }) := by
  have hclear : ∀ m' : MinionState, m'.attackTarget = some t →
      minionClearDeadTarget m' = m' := by
    intro m' hm'
    simp [minionClearDeadTarget, hm', hlive, hvis]
  constructor
  · intro hcd
    unfold minionUpdate
    rw [if_neg (by simp [hd])]
    rcases Nat.le_one_iff_eq_zero_or_eq_one.mp hcd with h0 | h1
    · have hstep : minionCooldownStep m = m := by
        simp [minionCooldownStep, h0]
      rw [hstep, hclear m ht]
      cases hhas : t.hasTakeDamage <;>
        simp [minionAttackOrMove, ht, h0, hhas]
    · have hstep : minionCooldownStep m = { m with attackCooldown := 0 } := by
        simp [minionCooldownStep, h1]
      rw [hstep, hclear _ (by simp [ht])]
      cases hhas : t.hasTakeDamage <;>
        simp [minionAttackOrMove, ht, hhas]
  · intro hcd
    unfold minionUpdate
    rw [if_neg (by simp [hd])]
    have hstep : minionCooldownStep m = { m with attackCooldown := m.attackCooldown - 1 } := by
      simp [minionCooldownStep, show 0 < m.attackCooldown by omega]
    rw [hstep, hclear _ (by simp [ht])]
    have hne : ¬(m.attackCooldown - 1 = 0) := by omega
    simp [minionAttackOrMove, ht, hne]

/-- Witness for claim C6: with cooldown 1 the concrete minion does not
move, and with cooldown 2 its update is the movement step at cooldown 1. -/
theorem c6_attack_stationary_witness :
    (minionUpdate { cxMinion with attackCooldown := 1 }).position
      = ({ cxMinion with attackCooldown := 1 } : MinionState).position
    ∧ minionUpdate cxMinion
      = minionMoveStep { cxMinion with attackCooldown := cxMinion.attackCooldown - 1 } :=
  ⟨(c6_attack_stationary_amended { cxMinion with attackCooldown := 1 } cxTarget
      rfl rfl rfl rfl).1 (by norm_num),
   (c6_attack_stationary_amended cxMinion cxTarget rfl rfl rfl rfl).2
      (by norm_num [cxMinion])⟩

theorem accLe_elim {acc : Option (AcqTarget × ℚ)} {c : AcqTarget} {d2 q : ℚ}
    (h : AccLe acc q) (heq : acc = some (c, d2)) : d2 ≤ q := by
  obtain ⟨c', d', h1, h2⟩ := h
  rw [h1] at heq
  obtain ⟨-, rfl⟩ := Prod.mk.injEq .. ▸ Option.some.injEq .. ▸ heq
  exact h2

theorem acquireBaseStep_sound (m : MinionState) (acc : Option (AcqTarget × ℚ))
    (basePos : Option Vec3) :
    acquireBaseStep m acc basePos = acc ∨
      ∃ bp, basePos = some bp
        ∧ acquireBaseStep m acc basePos = some (AcqTarget.baseRef bp, dist3Sq m.position bp)
        ∧ dist3Sq m.position bp ≤ (m.attackRange + 15) ^ 2 := by
  cases basePos with
  | none => exact Or.inl rfl
  | some bp =>
    simp only [acquireBaseStep]
    by_cases hkeep : (decide (dist3Sq m.position bp ≤ (m.attackRange + 15) ^ 2)
        && closerB (dist3Sq m.position bp) acc) = true
    · rw [if_pos hkeep]
      simp only [Bool.and_eq_true, decide_eq_true_eq] at hkeep
      exact Or.inr ⟨bp, rfl, rfl, hkeep.1⟩
    · rw [if_neg hkeep]
      exact Or.inl rfl

theorem acquireBaseStep_accLe (m : MinionState) (acc : Option (AcqTarget × ℚ))
    (basePos : Option Vec3) (q : ℚ) (h : AccLe acc q) :
    AccLe (acquireBaseStep m acc basePos) q := by
  obtain ⟨c, d, hacc, hd⟩ := h
  cases basePos with
  | none => exact ⟨c, d, hacc, hd⟩
  | some bp =>
    simp only [acquireBaseStep]
    by_cases hkeep : (decide (dist3Sq m.position bp ≤ (m.attackRange + 15) ^ 2)
        && closerB (dist3Sq m.position bp) acc) = true
    · rw [if_pos hkeep]
      simp only [Bool.and_eq_true] at hkeep
      have hcl := hkeep.2
      rw [hacc] at hcl
      simp only [closerB, decide_eq_true_eq] at hcl
      exact ⟨_, _, rfl, le_of_lt (lt_of_lt_of_le hcl hd)⟩
    · rw [if_neg hkeep]
      exact ⟨c, d, hacc, hd⟩

theorem acquireBaseStep_base_le (m : MinionState) (acc : Option (AcqTarget × ℚ))
    (bp : Vec3) (hr : dist3Sq m.position bp ≤ (m.attackRange + 15) ^ 2) :
    AccLe (acquireBaseStep m acc (some bp)) (dist3Sq m.position bp) := by
  simp only [acquireBaseStep]
  by_cases hcl : closerB (dist3Sq m.position bp) acc = true
  · rw [if_pos (by simp [hr, hcl])]
    exact ⟨_, _, rfl, le_refl _⟩
  · rw [if_neg (by simp [hcl])]
    match acc, hcl with
    | some (c, d), hcl =>
      refine ⟨c, d, rfl, ?_⟩
      simp only [closerB, decide_eq_true_eq] at hcl
      exact le_of_not_lt (fun h => hcl (by simpa using h))
    | none, hcl => simp [closerB] at hcl

/-- Claim C7, counterexample. The claim states that the enemy base
monument is acquired within the enlarged radius attackRange + 15. The
standalone minion component (part_004, an explicitly cited source of the
claim) acquires the monument only within attackRange + 10: the concrete
minion with attackRange 5 and a live monument at distance 17 acquires
nothing, although 17 is within 5 + 15. -/
theorem c7_monument_radius_counterexample :
    monumentAggro cxMinionFree ⟨0, 0, 17⟩ false = false
    ∧ dist3Sq cxMinionFree.position ⟨0, 0, 17⟩ ≤ (cxMinionFree.attackRange + 15) ^ 2
    ∧ cxMinionFree.attackTarget = none
    ∧ cxMinionFree.isDestroyed = false := by
  refine ⟨?_, ?_, rfl, rfl⟩
  · norm_num [monumentAggro, cxMinionFree, cxMinion, dist3Sq]
  · norm_num [cxMinionFree, cxMinion, dist3Sq]

/-- Claim C7, amended. In the scene acquisition pass, enemy minions and
towers are acquired only within attackRange and the enemy base only
within attackRange + 15, and the acquired candidate is the nearest: every
acquired target satisfies its respective radius bound, and its squared
distance is at most that of every eligible candidate of any kind. In the
standalone minion component the only acquisition is the enemy monument,
within attackRange + 10. -/
theorem c7_acquisition_amended :
    (∀ (m : MinionState) (others towers : List ScanEnt) (basePos : Option Vec3)
        (c : AcqTarget) (d2 : ℚ),
      acquireTarget m others towers basePos = some (c, d2) →
        (∃ e ∈ others, c = AcqTarget.minionRef e ∧ e.isDestroyed = false
            ∧ e.team ≠ m.team ∧ d2 = dist3Sq m.position e.position
            ∧ d2 ≤ m.attackRange ^ 2)
        ∨ (∃ e ∈ towers, c = AcqTarget.towerRef e ∧ e.isDestroyed = false
            ∧ d2 = dist3Sq m.position e.position ∧ d2 ≤ m.attackRange ^ 2)
        ∨ (∃ bp, basePos = some bp ∧ c = AcqTarget.baseRef bp
            ∧ d2 = dist3Sq m.position bp ∧ d2 ≤ (m.attackRange + 15) ^ 2))
    ∧ (∀ (m : MinionState) (others towers : List ScanEnt) (basePos : Option Vec3)
        (c : AcqTarget) (d2 : ℚ),
      acquireTarget m others towers basePos = some (c, d2) →
        (∀ e ∈ others, e.isDestroyed = false → e.team ≠ m.team →
          dist3Sq m.position e.position ≤ m.attackRange ^ 2 →
          d2 ≤ dist3Sq m.position e.position)
        ∧ (∀ e ∈ towers, e.isDestroyed = false →
          dist3Sq m.position e.position ≤ m.attackRange ^ 2 →
          d2 ≤ dist3Sq m.position e.position)
        ∧ (∀ bp, basePos = some bp →
          dist3Sq m.position bp ≤ (m.attackRange + 15) ^ 2 →
          d2 ≤ dist3Sq m.position bp))
    ∧ (∀ (m : MinionState) (monPos : Vec3) (monDestroyed : Bool),
      monumentAggro m monPos monDestroyed = true ↔
        (m.isDestroyed = false ∧ m.attackTarget = none ∧ monDestroyed = false
          ∧ dist3Sq m.position monPos ≤ (m.attackRange + 10) ^ 2)) := by
  refine ⟨?_, ?_, ?_⟩
  · intro m others towers basePos c d2 h
    unfold acquireTarget at h
    by_cases hdes : m.isDestroyed = true
    · rw [if_pos hdes] at h; exact absurd h (by simp)
    rw [if_neg hdes] at h
    by_cases htgt : m.attackTarget.isSome = true
    · rw [if_pos htgt] at h; exact absurd h (by simp)
    rw [if_neg htgt] at h
    rcases acquireBaseStep_sound m (acquireScan m others towers) basePos with hb | ⟨bp, hbp, he, hr⟩
    · rw [hb] at h
      unfold acquireScan at h
      rcases scanFold_sound m.position (m.attackRange ^ 2) _ _ towers _ with ht | ⟨e, he, h1, h2, h3⟩
      · rw [ht] at h
        rcases scanFold_sound m.position (m.attackRange ^ 2) _ _ others none with hm | ⟨e, he, h1, h2, h3⟩
        · rw [hm] at h; exact absurd h (by simp)
        · rw [h3] at h
          obtain ⟨h4, h5⟩ := Prod.mk.injEq .. ▸ Option.some.injEq .. ▸ h
          simp only [Bool.and_eq_true, Bool.not_eq_true', decide_eq_false_iff_not] at h1
          exact Or.inl ⟨e, he, h4.symm, h1.1, h1.2, h5.symm, h5 ▸ h2⟩
      · rw [h3] at h
        obtain ⟨h4, h5⟩ := Prod.mk.injEq .. ▸ Option.some.injEq .. ▸ h
        simp only [Bool.not_eq_true'] at h1
        exact Or.inr (Or.inl ⟨e, he, h4.symm, h1, h5.symm, h5 ▸ h2⟩)
    · rw [he] at h
      obtain ⟨h4, h5⟩ := Prod.mk.injEq .. ▸ Option.some.injEq .. ▸ h
      exact Or.inr (Or.inr ⟨bp, hbp, h4.symm, h5.symm, h5 ▸ hr⟩)
  · intro m others towers basePos c d2 h
    unfold acquireTarget at h
    by_cases hdes : m.isDestroyed = true
    · rw [if_pos hdes] at h; exact absurd h (by simp)
    rw [if_neg hdes] at h
    by_cases htgt : m.attackTarget.isSome = true
    · rw [if_pos htgt] at h; exact absurd h (by simp)
    rw [if_neg htgt] at h
    refine ⟨?_, ?_, ?_⟩
    · intro e he h1 h2 h3
      have helig : (fun e : ScanEnt => !e.isDestroyed && !(e.team = m.team : Bool)) e = true := by
        simp [h1, h2]
      have hA : AccLe (acquireScan m others towers) (dist3Sq m.position e.position) := by
        unfold acquireScan
        exact scanFold_accLe _ _ _ _ towers _ _
          (scanFold_best _ _ _ _ others none e he helig h3)
      exact accLe_elim (acquireBaseStep_accLe m _ basePos _ hA) h
    · intro e he h1 h2
      have helig : (fun e : ScanEnt => !e.isDestroyed) e = true := by simp [h1]
      have hA : AccLe (acquireScan m others towers) (dist3Sq m.position e.position) := by
        unfold acquireScan
        exact scanFold_best _ _ _ _ towers _ e he helig h2
      exact accLe_elim (acquireBaseStep_accLe m _ basePos _ hA) h
    · intro bp hbp hr
      rw [hbp] at h
      exact accLe_elim (acquireBaseStep_base_le m _ bp hr) h
  · intro m monPos monDestroyed
    simp [monumentAggro, Bool.and_eq_true, Bool.not_eq_true', Option.isNone_iff_eq_none,
      and_assoc]

/-- Witness for claim C7: the standalone component acquires a live
monument at distance 12 with attackRange 5, since 144 is within the
squared radius 225. -/
theorem c7_acquisition_witness :
    monumentAggro cxMinionFree ⟨0, 0, 12⟩ false = true :=
  (c7_acquisition_amended.2.2 cxMinionFree ⟨0, 0, 12⟩ false).mpr
    (by norm_num [cxMinionFree, cxMinion, dist3Sq])

/-- Claim C8: the claim (and the source comments) state that a minion
attack on a monument deals 0.2 times the nominal damage. The isMonument
test of animateProjectile checks userData.team, which addHealthToMonument
never sets, so the actual monument shape (userData.takeDamage without
userData.team) receives the full damage: a 20 damage hit takes the fresh
monument from 500 to 480, not to 496. A target that did carry
userData.team would receive the reduced 4, confirming that the reduction
path exists but is never reached by a monument. A target with a direct
takeDamage method receives the full damage, as the claim says. -/
theorem c8_monument_reduction_bug :
    projectileDamageAmount 20 monumentShape = some 20
    ∧ (monumentTakeDamage (initBase true) 20).monument.health = 480
    ∧ (20 : ℚ) * 0.2 = 4
    ∧ (480 : ℚ) ≠ 500 - 4
    ∧ projectileDamageAmount 20
        { hasTakeDamage := false, hasUserTakeDamage := true, userTeam := some TeamAE.ally }
        = some 4
    ∧ projectileDamageAmount 20
        { hasTakeDamage := true, hasUserTakeDamage := false, userTeam := none }
        = some 20 := by
  refine ⟨?_, ?_, by norm_num, by norm_num, ?_, ?_⟩
  · norm_num +decide [projectileDamageAmount, monumentShape]
  · norm_num [monumentTakeDamage, initBase]
  · norm_num +decide [projectileDamageAmount]
  · norm_num +decide [projectileDamageAmount]

/-- Claim C9: a tower with shootingRange 15 firing every 45 ticks for 50
damage against a 100 health minion held within range destroys it after
exactly 2 shots. In the frame simulation the first shot is fired on the
first frame, the minion is at 50 health and alive once that projectile
arrives (frame 30 shown), the second shot is fired on frame 46 (exactly 45
ticks after the first: 1 shot up to frame 45, 2 at frame 46), its arrival
takes the minion from 50 to 0 and sets isDestroyed, and no third shot is
ever fired (still 2 shots with the minion destroyed at frame 120). -/
theorem c9_tower_kill_two_shots :
    (tkRun 120).shots = 2 ∧ (tkRun 120).minion.isDestroyed = true
    ∧ (tkRun 120).minion.health = 0
    ∧ (tkRun 30).shots = 1 ∧ (tkRun 30).minion.isDestroyed = false
    ∧ (tkRun 30).minion.health = 50
    ∧ (tkRun 45).shots = 1 ∧ (tkRun 46).shots = 2 := by
  norm_num [tkRun, tkFrame, tkInit, tkProjectiles, tkTower, tkCooldown,
    Function.iterate_succ, Function.iterate_zero, Function.comp,
    takeDamage, sqDistLe, dist3Sq, tkTowerPos, tkMinionPos]

/-- Claim C10, counterexample. The claim states that movement is disabled
during the respawn countdown. updateMovement never reads the player
health: the concrete dead and hidden player with a pending move target is
moved by the update step. -/
theorem c10_dead_player_moves_counterexample :
    cxDeadPlayer.health = 0 ∧ cxDeadPlayer.visible = false
    ∧ (updateMovement cxDeadPlayer).position.x = 9/100
    ∧ cxDeadPlayer.position.x = 0 := by
  refine ⟨rfl, rfl, ?_, rfl⟩
  have h2500 : sqrtQ (2500 : ℚ) = 50 := by
    rw [show (2500 : ℚ) = 50 * 50 by norm_num, sqrtQ_sq 50 (by norm_num)]
  have hseek : playerSeekTarget cxDeadPlayer =
      { cxDeadPlayer with direction := ⟨3/5, 0, 4/5⟩ } := by
    norm_num [playerSeekTarget, cxDeadPlayer, normXZ, h2500]
  have hcl1 : clampPlay (9/100) = 9/100 := by
    norm_num [clampPlay, playHalf]
  have hcl2 : clampPlay (3/25) = 3/25 := by
    norm_num [clampPlay, playHalf]
  have hh : playerHeight (9/100) (3/25) = 0 := by
    norm_num [playerHeight, minionHeight]
  rw [updateMovement, hseek]
  norm_num [playerStep, cxDeadPlayer, hcl1, hcl2, hh,
    allyBaseCenter, enemyBaseCenter, playHalf]

/-- Claim C10, amended. Player death hides the avatar, the respawn display
counts 5, 4, 3, 2, 1, 0, and on respawn the health equals maxHealth, the
position is the ally spawn point, the move target is cleared and the
avatar is visible (and hence movable) again; however movement is not
disabled while dead, since the movement step never consults health. -/
theorem c10_respawn_amended (p : PlayerState) :
    (p.health ≤ 0 → p.visible = true → (deathTransition p).visible = false)
    ∧ respawnCountdown 5 = [5, 4, 3, 2, 1, 0]
    ∧ (respawnPlayer p).health = p.maxHealth
    ∧ (respawnPlayer p).position = allySpawn
    ∧ (respawnPlayer p).targetPosition = none
    ∧ (respawnPlayer p).visible = true := by
  refine ⟨?_, rfl, rfl, rfl, rfl, rfl⟩
  intro h1 h2
  simp [deathTransition, h1, h2]

/-- Witness for claim C10: the concrete dead but still visible player is
hidden by the death transition and respawns at the ally spawn point. -/
theorem c10_respawn_witness :
    (deathTransition cxDyingPlayer).visible = false
    ∧ (respawnPlayer cxDyingPlayer).position = allySpawn :=
  ⟨(c10_respawn_amended cxDyingPlayer).1 (by norm_num [cxDyingPlayer]) rfl,
   (c10_respawn_amended cxDyingPlayer).2.2.2.1⟩

end Moba
